import Mathlib

/-!
# Verification of the orion-broker sub-order engine

Shallow embedding of the broker agent (`src/Broker.ts`, `src/OrionBlockchain.ts`).
Big-number amounts (`bignumber.js` arbitrary-precision decimals) are modelled as
rationals; JavaScript object key enumeration (insertion order) is modelled by
association lists; database rows are lists of records; fallible handlers return
`Except`.  The ambient clock (`Date.now()`) is passed explicitly as a `now`
argument to every operation that runs in a context where the clock is available.
-/

namespace OrionBroker

/-! ## Keccak-256 (the hash behind `Web3.utils.soliditySha3`)

Executable byte-level keccak-256: 64-bit lanes as naturals reduced mod `2^64`,
the state as a flat list of 25 lanes (index `x + 5*y`), original keccak padding
(`0x01 … 0x80`), rate 136 bytes. -/

def U64 : Nat := 18446744073709551616

/-- Rotate a 64-bit word left by `n` (0 ≤ n < 64). -/
def rotl64 (x n : Nat) : Nat :=
  (((x <<< n) % U64) ||| (x >>> (64 - n)))

/-- Bitwise complement inside 64 bits. -/
def not64 (x : Nat) : Nat := x ^^^ (U64 - 1)

/-- The 24 keccak-f[1600] round constants. -/
def keccakRC : List Nat :=
  [1, 32898, 9223372036854808714, 9223372039002292224, 32907, 2147483649,
   9223372039002292353, 9223372036854808585, 138, 136, 2147516425, 2147483658,
   2147516555, 9223372036854775947, 9223372036854808713, 9223372036854808579,
   9223372036854808578, 9223372036854775936, 32778, 9223372039002259466,
   9223372039002292353, 9223372036854808704, 2147483649, 9223372039002292232]

def keccakRound (rc : Nat) (A : List Nat) : List Nat :=
  match A with
  | a0 :: a1 :: a2 :: a3 :: a4 :: a5 :: a6 :: a7 :: a8 :: a9 :: a10 :: a11 :: a12 :: a13 :: a14 :: a15 :: a16 :: a17 :: a18 :: a19 :: a20 :: a21 :: a22 :: a23 :: a24 :: _ =>
    let c0 := a0 ^^^ a5 ^^^ a10 ^^^ a15 ^^^ a20
    let c1 := a1 ^^^ a6 ^^^ a11 ^^^ a16 ^^^ a21
    let c2 := a2 ^^^ a7 ^^^ a12 ^^^ a17 ^^^ a22
    let c3 := a3 ^^^ a8 ^^^ a13 ^^^ a18 ^^^ a23
    let c4 := a4 ^^^ a9 ^^^ a14 ^^^ a19 ^^^ a24
    let d0 := c4 ^^^ rotl64 c1 1
    let d1 := c0 ^^^ rotl64 c2 1
    let d2 := c1 ^^^ rotl64 c3 1
    let d3 := c2 ^^^ rotl64 c4 1
    let d4 := c3 ^^^ rotl64 c0 1
    let t0 := a0 ^^^ d0
    let t1 := a1 ^^^ d1
    let t2 := a2 ^^^ d2
    let t3 := a3 ^^^ d3
    let t4 := a4 ^^^ d4
    let t5 := a5 ^^^ d0
    let t6 := a6 ^^^ d1
    let t7 := a7 ^^^ d2
    let t8 := a8 ^^^ d3
    let t9 := a9 ^^^ d4
    let t10 := a10 ^^^ d0
    let t11 := a11 ^^^ d1
    let t12 := a12 ^^^ d2
    let t13 := a13 ^^^ d3
    let t14 := a14 ^^^ d4
    let t15 := a15 ^^^ d0
    let t16 := a16 ^^^ d1
    let t17 := a17 ^^^ d2
    let t18 := a18 ^^^ d3
    let t19 := a19 ^^^ d4
    let t20 := a20 ^^^ d0
    let t21 := a21 ^^^ d1
    let t22 := a22 ^^^ d2
    let t23 := a23 ^^^ d3
    let t24 := a24 ^^^ d4
    let b0 := rotl64 t0 0
    let b1 := rotl64 t6 44
    let b2 := rotl64 t12 43
    let b3 := rotl64 t18 21
    let b4 := rotl64 t24 14
    let b5 := rotl64 t3 28
    let b6 := rotl64 t9 20
    let b7 := rotl64 t10 3
    let b8 := rotl64 t16 45
    let b9 := rotl64 t22 61
    let b10 := rotl64 t1 1
    let b11 := rotl64 t7 6
    let b12 := rotl64 t13 25
    let b13 := rotl64 t19 8
    let b14 := rotl64 t20 18
    let b15 := rotl64 t4 27
    let b16 := rotl64 t5 36
    let b17 := rotl64 t11 10
    let b18 := rotl64 t17 15
    let b19 := rotl64 t23 56
    let b20 := rotl64 t2 62
    let b21 := rotl64 t8 55
    let b22 := rotl64 t14 39
    let b23 := rotl64 t15 41
    let b24 := rotl64 t21 2
    let e0 := b0 ^^^ (not64 b1 &&& b2)
    let e1 := b1 ^^^ (not64 b2 &&& b3)
    let e2 := b2 ^^^ (not64 b3 &&& b4)
    let e3 := b3 ^^^ (not64 b4 &&& b0)
    let e4 := b4 ^^^ (not64 b0 &&& b1)
    let e5 := b5 ^^^ (not64 b6 &&& b7)
    let e6 := b6 ^^^ (not64 b7 &&& b8)
    let e7 := b7 ^^^ (not64 b8 &&& b9)
    let e8 := b8 ^^^ (not64 b9 &&& b5)
    let e9 := b9 ^^^ (not64 b5 &&& b6)
    let e10 := b10 ^^^ (not64 b11 &&& b12)
    let e11 := b11 ^^^ (not64 b12 &&& b13)
    let e12 := b12 ^^^ (not64 b13 &&& b14)
    let e13 := b13 ^^^ (not64 b14 &&& b10)
    let e14 := b14 ^^^ (not64 b10 &&& b11)
    let e15 := b15 ^^^ (not64 b16 &&& b17)
    let e16 := b16 ^^^ (not64 b17 &&& b18)
    let e17 := b17 ^^^ (not64 b18 &&& b19)
    let e18 := b18 ^^^ (not64 b19 &&& b15)
    let e19 := b19 ^^^ (not64 b15 &&& b16)
    let e20 := b20 ^^^ (not64 b21 &&& b22)
    let e21 := b21 ^^^ (not64 b22 &&& b23)
    let e22 := b22 ^^^ (not64 b23 &&& b24)
    let e23 := b23 ^^^ (not64 b24 &&& b20)
    let e24 := b24 ^^^ (not64 b20 &&& b21)
    [e0 ^^^ rc, e1, e2, e3, e4, e5, e6, e7, e8, e9, e10, e11, e12, e13, e14, e15, e16, e17, e18, e19, e20, e21, e22, e23, e24]
  | _ => A

def keccakF (A : List Nat) : List Nat :=
  keccakRC.foldl (fun st rc => keccakRound rc st) A

/-- Read the 8 bytes starting at `8*i` of `bs` as a little-endian 64-bit lane. -/
def laneLE (bs : List Nat) (i : Nat) : Nat :=
  (List.range 8).foldl (fun acc j => acc ||| (bs.getD (8 * i + j) 0 <<< (8 * j))) 0

/-- XOR a full 136-byte block into the first 17 lanes of the state. -/
def xorBlock (A : List Nat) (block : List Nat) : List Nat :=
  (List.range 25).map (fun i =>
    if i < 17 then A.getD i 0 ^^^ laneLE block i else A.getD i 0)

/-- Keccak `pad10*1` padding to rate 136 with domain bits `0x01`. -/
def keccakPad (msg : List Nat) : List Nat :=
  let p := 136 - msg.length % 136
  if p = 1 then msg ++ [0x81]
  else msg ++ 0x01 :: (List.replicate (p - 2) 0 ++ [0x80])

/-- Absorb `blocks` 136-byte blocks of `msg` into the sponge state. -/
def keccakAbsorb : Nat → List Nat → List Nat → List Nat
  | 0, A, _ => A
  | Nat.succ f, A, msg => keccakAbsorb f (keccakF (xorBlock A (msg.take 136))) (msg.drop 136)

/-- First 32 bytes of the state, little-endian per lane. -/
def keccakSqueeze (A : List Nat) : List Nat :=
  (List.range 4).flatMap (fun i => (List.range 8).map (fun j => (A.getD i 0 >>> (8 * j)) % 256))

/-- keccak-256 of a byte list (bytes are naturals below 256). -/
def keccak256 (msg : List Nat) : List Nat :=
  let p := keccakPad msg
  keccakSqueeze (keccakAbsorb (p.length / 136) (List.replicate 25 0) p)

set_option maxRecDepth 100000 in
/-- Sanity vector: keccak-256 of the empty message. -/
theorem keccak256_nil :
    keccak256 [] =
      [197, 210, 70, 1, 134, 247, 35, 60, 146, 126, 125, 178, 220, 199, 3, 192,
       229, 0, 182, 83, 202, 130, 39, 59, 123, 250, 216, 4, 93, 133, 164, 112] := by
  decide

/-! ## Data model (`src/Model.ts`, `src/db/Db.ts`)

`bignumber.js` values are arbitrary-precision decimals; they are modelled as
`Rat` (a `NaN` big-number is modelled as an absent `Option` value where the
code checks `isNaN`).  Hex strings (addresses, hashes, signatures) are
modelled as byte lists.  JavaScript object dictionaries are association lists
in key-insertion order. -/

/-- A JavaScript object used as a dictionary, in key-insertion order. -/
abbrev Dict (α : Type) := List (String × α)

/-- JavaScript `obj[key]`: the value of the first entry with key `k`, if present. -/
def dictLookup {α : Type} (d : Dict α) (k : String) : Option α :=
  (d.find? (fun p => p.1 == k)).map Prod.snd

inductive Status where
  | PREPARE
  | ACCEPTED
  | FILLED
  | CANCELED
  | REJECTED
deriving DecidableEq

inductive Side where
  | buy
  | sell
deriving DecidableEq

structure DbSubOrder where
  id : Nat
  symbol : String
  side : Side
  price : Rat
  amount : Rat
  exchange : String
  timestamp : Nat
  status : Status
  filledAmount : Rat
  exchangeOrderId : Option String
  sentToAggregator : Bool
deriving DecidableEq

structure Trade where
  exchange : String
  exchangeOrderId : String
  price : Rat
  amount : Rat
  status : Status
deriving DecidableEq

structure Withdraw where
  exchangeWithdrawId : String
  exchange : String
  currency : String
  amount : Rat
  status : String
deriving DecidableEq

structure Transaction where
  transactionHash : String
  method : String
  asset : String
  amount : Rat
  createTime : Nat
  status : String
deriving DecidableEq

structure Liability where
  assetName : String
  outstandingAmount : Rat
  timestamp : Rat
deriving DecidableEq

/-- The persistent store (`Db`): tables for sub-orders, trades, withdrawals
and on-chain transactions, each in insertion order. -/
structure Db where
  subOrders : List DbSubOrder
  trades : List Trade
  withdraws : List Withdraw
  transactions : List Transaction
deriving DecidableEq

def Db.getSubOrderById (db : Db) (id : Nat) : Option DbSubOrder :=
  db.subOrders.find? (fun s => s.id == id)

def Db.getSubOrder (db : Db) (exchange exchangeOrderId : String) : Option DbSubOrder :=
  db.subOrders.find?
    (fun s => s.exchange == exchange && s.exchangeOrderId == some exchangeOrderId)

def Db.insertSubOrder (db : Db) (s : DbSubOrder) : Db :=
  { db with subOrders := db.subOrders ++ [s] }

def Db.updateSubOrder (db : Db) (s : DbSubOrder) : Db :=
  { db with subOrders := db.subOrders.map (fun x => if x.id == s.id then s else x) }

def Db.getSubOrderTrades (db : Db) (exchange exchangeOrderId : String) : List Trade :=
  db.trades.filter (fun t => t.exchange == exchange && t.exchangeOrderId == exchangeOrderId)

def Db.insertTrade (db : Db) (t : Trade) : Db :=
  { db with trades := db.trades ++ [t] }

def Db.insertWithdraw (db : Db) (w : Withdraw) : Db :=
  { db with withdraws := db.withdraws ++ [w] }

def Db.getWithdrawsToCheck (db : Db) : List Withdraw :=
  db.withdraws.filter (fun w => w.status == "pending")

/-- Insert a transaction row; `insetTransaction` is the source's spelling. -/
def Db.insetTransaction (db : Db) (t : Transaction) : Db :=
  { db with transactions := db.transactions ++ [t] }

def Db.getPendingTransactions (db : Db) : List Transaction :=
  db.transactions.filter (fun t => t.status == "PENDING")

/-! ## Chain client (`src/OrionBlockchain.ts`) -/

structure BlockchainOrder where
  id : List Nat
  senderAddress : List Nat
  matcherAddress : List Nat
  baseAsset : List Nat
  quoteAsset : List Nat
  matcherFeeAsset : List Nat
  amount : Int
  price : Int
  matcherFee : Int
  nonce : Int
  expiration : Int
  buySide : Nat
  signature : List Nat
deriving DecidableEq

/-- Big-endian byte encoding of `v` in `k` bytes. -/
def toBytesBE (k v : Nat) : List Nat :=
  (List.range k).map (fun i => (v >>> (8 * (k - 1 - i))) % 256)

/-- Source `longToHex`: a numeric field as the 8 big-endian bytes of a 64-bit `Long`
(`Long.fromNumber(long).toBytesBE()`). -/
def longToHex (n : Int) : List Nat :=
  toBytesBE 8 (n % (U64 : Int)).toNat

/-- The byte string that `Web3.utils.soliditySha3` tightly packs inside
`hashOrder`: tag `0x03`, the five addresses, the five `longToHex` fields and
the `buySide` byte (`order.buySide ? '0x01' : '0x00'`). -/
def hashOrderBytes (o : BlockchainOrder) : List Nat :=
  [0x03] ++ o.senderAddress ++ o.matcherAddress ++ o.baseAsset ++ o.quoteAsset ++
    o.matcherFeeAsset ++ longToHex o.amount ++ longToHex o.price ++
    longToHex o.matcherFee ++ longToHex o.nonce ++ longToHex o.expiration ++
    [if o.buySide = 0 then 0x00 else 0x01]

def hashOrder (o : BlockchainOrder) : List Nat :=
  keccak256 (hashOrderBytes o)

def DEFAULT_EXPIRATION : Nat := 29 * 24 * 60 * 60 * 1000

/-- JavaScript `Math.round` (round half toward positive infinity). -/
def jsRound (x : Rat) : Int := (x + 1 / 2).floor

/-- Source `toBaseUnit`: `Math.round(amount.toNumber() * 10 ** decimals)` with the
default `decimals = 8`.  The double-precision product is modelled as the exact
rational product. -/
def toBaseUnit (amount : Rat) : Int :=
  jsRound (amount * 100000000)

/-- Source `counterSide`, which is `side === 'buy' ? 0 : 1`. -/
def counterSide (side : Side) : Nat :=
  if side = Side.buy then 0 else 1

/-- The configuration of an `OrionBlockchain` instance: chain id, the broker
and matcher addresses, the process-wide token registry, and the typed-data
signing primitive of `eth-sig-util` (a deterministic function of the domain
and the order, keyed by the instance's private key, which it closes over). -/
structure ChainEnv where
  chainId : Nat
  address : List Nat
  matcherAddress : List Nat
  ornAddress : List Nat
  symbolToAddresses : String → List Nat × List Nat
  signTypedMessage : Nat → BlockchainOrder → List Nat

def createBlockchainOrder (env : ChainEnv) (subOrder : DbSubOrder) (trade : Trade) :
    BlockchainOrder :=
  let assets := env.symbolToAddresses subOrder.symbol
  let buySide := counterSide subOrder.side
  { id := []
    senderAddress := env.address
    matcherAddress := env.matcherAddress
    baseAsset := assets.1
    quoteAsset := assets.2
    matcherFeeAsset := env.ornAddress
    amount := toBaseUnit trade.amount
    price := toBaseUnit trade.price
    matcherFee := 0
    nonce := (subOrder.timestamp : Int)
    expiration := ((subOrder.timestamp + DEFAULT_EXPIRATION : Nat) : Int)
    buySide := buySide
    signature := [] }

/-- Source `signTrade`: fill `id := hashOrder bo` and `signature := signOrder bo`.
The `now` argument models the ambient clock available to every handler; the
body never consults it. -/
def signTrade (env : ChainEnv) (now : Nat) (subOrder : DbSubOrder) (trade : Trade) :
    BlockchainOrder :=
  let bo := createBlockchainOrder env subOrder trade
  let bo1 := { bo with id := hashOrder bo }
  { bo1 with signature := env.signTypedMessage env.chainId bo1 }

/-! ## Sub-order engine (`src/Broker.ts`)

Handlers are state transformers on `Db`.  A thrown JavaScript error is an
`Except.error`; handlers whose caller catches and logs the error (so that the
store is left as it was) are modelled as total functions on `Db`. -/

structure SubOrderStatusAccepted where
  id : Nat
  status : Status
deriving DecidableEq

structure SubOrderStatus where
  id : Nat
  status : Option Status
  filledAmount : Rat
  blockchainOrder : Option BlockchainOrder
deriving DecidableEq

structure CreateSubOrder where
  id : Nat
  symbol : String
  side : Side
  price : Rat
  amount : Rat
  exchange : String
deriving DecidableEq

/-- Handler `Broker.onSubOrderStatusAccepted` (hub acknowledgement / forced rejection). -/
def onSubOrderStatusAccepted (db : Db) (data : SubOrderStatusAccepted) :
    Except String Db :=
  match db.getSubOrderById data.id with
  | none => .error "Suborder not found"
  | some dbSubOrder =>
    let rejectedByAggregator :=
      data.status = Status.REJECTED ∧ dbSubOrder.status ≠ Status.REJECTED
    let s1 := if rejectedByAggregator then
        { dbSubOrder with status := Status.REJECTED } else dbSubOrder
    let isStatusFinal := s1.status ≠ Status.PREPARE ∧ s1.status ≠ Status.ACCEPTED
    if rejectedByAggregator ∨ (s1.status = data.status ∧ isStatusFinal) then
      .ok (db.updateSubOrder { s1 with sentToAggregator := true })
    else
      .ok db

/-- The trades the store holds for a sub-order: none when it has no
`exchangeOrderId`, otherwise `getSubOrderTrades(exchange, exchangeOrderId)`. -/
def tradesOf (db : Db) (s : DbSubOrder) : List Trade :=
  match s.exchangeOrderId with
  | none => []
  | some eid => db.getSubOrderTrades s.exchange eid

/-- Handler `Broker.onCheckSubOrder`. -/
def onCheckSubOrder (env : ChainEnv) (now : Nat) (db : Db) (id : Nat) :
    Except String SubOrderStatus :=
  match db.getSubOrderById id with
  | none => .ok { id := id, status := none, filledAmount := 0, blockchainOrder := none }
  | some dbSubOrder =>
    let trades := tradesOf db dbSubOrder
    if trades.length > 1 then .error "Cant support multiple trades yet"
    else
      let blockchainOrder := match trades with
        | [] => none
        | t :: _ => some (signTrade env now dbSubOrder t)
      .ok { id := id
            status := some (if dbSubOrder.status = Status.PREPARE then
              Status.ACCEPTED else dbSubOrder.status)
            filledAmount := dbSubOrder.filledAmount
            blockchainOrder := blockchainOrder }

/-- Outcome of one `onCreateSubOrder` call: the store afterwards, the
returned `SubOrderStatus`, and how many times `connector.submitSubOrder`
was invoked during the call. -/
structure CreateOutcome where
  db : Db
  result : Except String SubOrderStatus
  submitCalls : Nat

/-- Handler `Broker.onCreateSubOrder`.  `submit` is the adapter's response for this
request: `some exchangeOrderId` on success, `none` when the venue rejects
(the catch leaves `subOrder = null`). -/
def onCreateSubOrder (env : ChainEnv) (submit : Option String) (now : Nat)
    (db : Db) (request : CreateSubOrder) : CreateOutcome :=
  match db.getSubOrderById request.id with
  | some _ => { db := db, result := onCheckSubOrder env now db request.id, submitCalls := 0 }
  | none =>
    let dbSubOrder : DbSubOrder :=
      { id := request.id
        symbol := request.symbol
        side := request.side
        price := request.price
        amount := request.amount
        exchange := request.exchange
        timestamp := now
        status := Status.PREPARE
        filledAmount := 0
        exchangeOrderId := none
        sentToAggregator := false }
    let db1 := db.insertSubOrder dbSubOrder
    let s1 := match submit with
      | none => { dbSubOrder with status := Status.REJECTED }
      | some eid => { dbSubOrder with exchangeOrderId := some eid, status := Status.ACCEPTED }
    let db2 := db1.updateSubOrder s1
    { db := db2, result := onCheckSubOrder env now db2 s1.id, submitCalls := 1 }

/-- Handler `Broker.onTrade`.  The enclosing try/catch logs any thrown error, so the
handler is total on the store; the trailing `sendSubOrderStatus` /
`sendToFrontend` notifications touch no persisted state. -/
def onTrade (db : Db) (trade : Trade) : Db :=
  match db.getSubOrder trade.exchange trade.exchangeOrderId with
  | none => db
  | some dbSubOrder =>
    if trade.status ≠ Status.FILLED ∧ trade.status ≠ Status.CANCELED then db
    else if trade.status = Status.FILLED ∧ ¬ dbSubOrder.amount = trade.amount then db
    else
      let s1 := { dbSubOrder with filledAmount := trade.amount, status := trade.status }
      let db1 := if 0 < s1.filledAmount then db.insertTrade trade else db
      db1.updateSubOrder s1

/-! ## Balances and liabilities (`src/Broker.ts`) -/

/-- Result of `Broker.sendUpdateBalance`: the new in-memory `lastBalances`
snapshot, the `exchanges` payload built for the hub, and whether it is sent
(only when the payload differs from `getLastBalancesJson()`; decimal strings
are compared through their rational values). -/
structure BalanceUpdate where
  lastBalances : Dict (Dict Rat)
  exchangesPayload : Dict (Dict Rat)
  sendToHub : Bool

/-- Loop body `Broker.sendUpdateBalance`: start from an empty snapshot and add an entry
per exchange whose poll succeeded (an `error` resolve is only logged). -/
def sendUpdateBalance (lastSent : Dict (Dict Rat))
    (balances : Dict (Except String (Dict Rat))) : BalanceUpdate :=
  let lb := balances.foldl
    (fun acc p => match p.2 with
      | .error _ => acc
      | .ok result => acc ++ [(p.1, result)]) []
  { lastBalances := lb, exchangesPayload := lb, sendToHub := decide (lb ≠ lastSent) }

structure ExchangeWithdrawLimit where
  fee : Option Rat
  min : Option Rat
deriving DecidableEq

/-- A venue adapter as seen by the withdrawal planner: whether it supports
withdrawal, and its per-asset withdraw limit (`none` models both a thrown
`getWithdrawLimit` and a falsy result; a `none` field models a NaN). -/
structure ConnectorInfo where
  hasWithdraw : Bool
  getWithdrawLimit : String → Option ExchangeWithdrawLimit

/-- The `Connectors` registry: `getConnector` is `none` when the lookup
throws; `withdrawResult` is the `exchangeWithdrawId` the venue returns for a
withdrawal request (`none` when the call fails or yields no id). -/
structure ConnectorsEnv where
  getConnector : String → Option ConnectorInfo
  withdrawResult : String → String → Rat → Option String

/-- Planner `Broker.getExchangeForWithdraw`: scan `lastBalances` in key-insertion
order; any throw inside the loop body (unknown connector, missing balance
entry) is caught and the scan continues. -/
def getExchangeForWithdraw (cenv : ConnectorsEnv) :
    Dict (Dict Rat) → Rat → String → Option (String × Rat)
  | [], _, _ => none
  | (exchange, bals) :: rest, amount, assetName =>
    let next := getExchangeForWithdraw cenv rest amount assetName
    match cenv.getConnector exchange with
    | none => next
    | some c =>
      if !c.hasWithdraw then next
      else
        match c.getWithdrawLimit assetName with
        | none => next
        | some withdrawLimit =>
          match withdrawLimit.fee, withdrawLimit.min with
          | some fee, some mn =>
            let amountWithFee := if amount + fee < mn then mn else amount + fee
            match dictLookup bals assetName with
            | none => next
            | some b => if amountWithFee < b then some (exchange, amountWithFee) else next
          | _, _ => next

/-- Action `Broker.exchangeWithdraw`: insert a pending `Withdraw` row when the venue
returns a withdrawal id. -/
def exchangeWithdraw (cenv : ConnectorsEnv) (db : Db) (exchange : String)
    (amount : Rat) (assetName : String) : Db :=
  match cenv.getConnector exchange with
  | none => db
  | some c =>
    if !c.hasWithdraw then db
    else
      match cenv.withdrawResult exchange assetName amount with
      | none => db
      | some exchangeWithdrawId =>
        db.insertWithdraw
          { exchangeWithdrawId := exchangeWithdrawId
            exchange := exchange
            currency := assetName
            amount := amount
            status := "pending" }

/-- The chain-gateway reads and transaction builders `manageLiability` and
`deposit` consult.  A `none` transaction models a build/broadcast that threw
(gas too high, no nonce) before anything was persisted. -/
structure GatewayEnv where
  getWalletBalance : Dict Rat
  getAllowance : String → Rat
  depositETHTx : Rat → Option Transaction
  depositERC20Tx : Rat → String → Option Transaction

def fromWei8 (wei : Rat) : Rat := wei / 100000000

/-- Action `Broker.deposit`. -/
def deposit (genv : GatewayEnv) (db : Db) (amount : Rat) (assetName : String) : Db :=
  match dictLookup genv.getWalletBalance assetName with
  | none => db
  | some balance =>
    if balance < amount then db
    else if assetName = "ETH" then
      match genv.depositETHTx amount with
      | none => db
      | some transaction => db.insetTransaction transaction
    else if amount ≤ genv.getAllowance assetName then
      match genv.depositERC20Tx amount assetName with
      | none => db
      | some transaction => db.insetTransaction transaction
    else db

/-- Loop body `Broker.manageLiability`.  `now` is `Date.now() / 1000` in seconds; a
missing wallet-balance entry (or NaN) throws before any write. -/
def manageLiability (cenv : ConnectorsEnv) (genv : GatewayEnv)
    (lastBalances : Dict (Dict Rat)) (duePeriodSeconds : Rat) (db : Db)
    (liability : Liability) (now : Rat) : Db :=
  if 0 < liability.outstandingAmount ∧ duePeriodSeconds < now - liability.timestamp then
    if db.getPendingTransactions ≠ [] then db
    else if db.getWithdrawsToCheck ≠ [] then db
    else
      let assetName := liability.assetName
      let amount := fromWei8 liability.outstandingAmount
      match dictLookup genv.getWalletBalance assetName,
            dictLookup genv.getWalletBalance "ETH" with
      | some assetBalance0, some ethBalance =>
        let ethFeeAmount : Rat := 45 / 1000
        if ¬ ethFeeAmount < ethBalance then db
        else
          let assetBalance :=
            if assetName = "ETH" then assetBalance0 - ethFeeAmount else assetBalance0
          if amount ≤ assetBalance then
            deposit genv db amount assetName
          else
            let remaining := amount - assetBalance
            match getExchangeForWithdraw cenv lastBalances remaining assetName with
            | some (exchange, amountWithFee) =>
              exchangeWithdraw cenv db exchange amountWithFee assetName
            | none => db
      | _, _ => db
  else db

/-! ## Store lemmas -/

theorem find?_map_update_of_found (l : List DbSubOrder) (s : DbSubOrder) (i : Nat)
    (hid : s.id = i) (h : (l.find? (fun x => x.id == i)).isSome) :
    (l.map (fun x => if x.id == s.id then s else x)).find? (fun x => x.id == i) = some s := by
  induction l with
  | nil => simp [List.find?] at h
  | cons a t ih =>
    by_cases ha : a.id = i
    · have h1 : (a.id == s.id) = true := by simp [ha, hid]
      have h2 : (s.id == i) = true := by simp [hid]
      simp only [List.map_cons, h1, if_pos]
      exact List.find?_cons_of_pos _ h2
    · have h1 : (a.id == s.id) = false := by simp [hid, ha]
      have h2 : (a.id == i) = false := by simp [ha]
      simp only [List.map_cons, h1]
      rw [if_neg (by simp [ha, hid])]
      rw [List.find?_cons_of_neg _ (by simp [ha])]
      rw [List.find?_cons_of_neg _ (by simp [ha])] at h
      exact ih h

theorem find?_map_update_of_none (l : List DbSubOrder) (s : DbSubOrder) (i : Nat)
    (hid : s.id = i) (h : l.find? (fun x => x.id == i) = none) :
    (l.map (fun x => if x.id == s.id then s else x)).find? (fun x => x.id == i) = none := by
  induction l with
  | nil => simp
  | cons a t ih =>
    have ha : (a.id == i) = false := by
      by_contra hc
      rw [List.find?_cons_of_pos _ (by simpa using hc)] at h
      exact Option.noConfusion h
    rw [List.find?_cons_of_neg _ (by simp [ha])] at h
    simp only [List.map_cons]
    rw [if_neg (by simp [hid]; simpa using ha)]
    rw [List.find?_cons_of_neg _ (by simp [ha])]
    exact ih h

/-- Looking up the row `updateSubOrder` just rewrote returns the new row,
provided some row with that id was already stored. -/
theorem getSubOrderById_update (db : Db) (s : DbSubOrder) (i : Nat)
    (hid : s.id = i) (h : (db.getSubOrderById i).isSome) :
    (db.updateSubOrder s).getSubOrderById i = some s :=
  find?_map_update_of_found db.subOrders s i hid h

/-- After a fresh insert followed by an update of the same id, the lookup
returns the updated row. -/
theorem getSubOrderById_insert_update (db : Db) (s0 s1 : DbSubOrder) (i : Nat)
    (h0 : s0.id = i) (h1 : s1.id = i) (h : db.getSubOrderById i = none) :
    ((db.insertSubOrder s0).updateSubOrder s1).getSubOrderById i = some s1 := by
  apply find?_map_update_of_found _ _ _ h1
  show (((db.subOrders ++ [s0]).find? (fun x => x.id == i))).isSome
  rw [List.find?_append]
  rw [show List.find? (fun x => x.id == i) db.subOrders = none from h]
  rw [Option.none_or, List.find?_cons_of_pos _ (by simp [h0])]
  rfl

/-! ## Claim C9: signature determinism -/

/-- C9.  For a fixed `(subOrder, trade)` and chain configuration, `signTrade`
is a pure function: its result — in particular the `blockchainOrder.id` hash
and the `signature` bytes — does not depend on the ambient clock (`now`) or
any other per-call state.  (The typed-data signing primitive is a
deterministic function of its inputs, as `eth-sig-util`'s RFC-6979 ECDSA is.) -/
theorem signTrade_deterministic (env : ChainEnv) (subOrder : DbSubOrder)
    (trade : Trade) (now1 now2 : Nat) :
    (signTrade env now1 subOrder trade).id = (signTrade env now2 subOrder trade).id ∧
    (signTrade env now1 subOrder trade).signature =
      (signTrade env now2 subOrder trade).signature ∧
    signTrade env now1 subOrder trade = signTrade env now2 subOrder trade :=
  ⟨rfl, rfl, rfl⟩

/-! ## Claim C1: hub-forced rejection versus FILLED -/

/-- A FILLED sub-order as persisted after a complete fill. -/
def subOrderFilled : DbSubOrder :=
  { id := 1
    symbol := "BTC-USDT"
    side := Side.buy
    price := 10000
    amount := 1
    exchange := "X"
    timestamp := 1600000000000
    status := Status.FILLED
    filledAmount := 1
    exchangeOrderId := some "e1"
    sentToAggregator := false }

def dbFilled : Db :=
  { subOrders := [subOrderFilled], trades := [], withdraws := [], transactions := [] }

def ackRejected : SubOrderStatusAccepted := { id := 1, status := Status.REJECTED }

/-- C1 counterexample.  The persisted status of sub-order 1 is FILLED, yet
`onSubOrderStatusAccepted` with `data.status = REJECTED` rewrites it to
REJECTED: `rejectedByAggregator` only tests `status !== REJECTED`, so a
FILLED (terminal) sub-order does regress. -/
theorem hub_rejection_regresses_filled :
    (dbFilled.getSubOrderById 1).map DbSubOrder.status = some Status.FILLED ∧
    ((onSubOrderStatusAccepted dbFilled ackRejected).toOption.bind
      (fun db2 => (db2.getSubOrderById 1).map DbSubOrder.status)) =
      some Status.REJECTED := by
  decide

/-- C1 (amended).  Hub-side rejection moves every persisted status that is
not already REJECTED — including the terminal FILLED and CANCELED — to
REJECTED; whenever the sub-order exists and the hub reports REJECTED, the
persisted status afterwards is REJECTED. -/
theorem hub_rejection_forces_rejected (db : Db) (data : SubOrderStatusAccepted)
    (s0 : DbSubOrder) (hfound : db.getSubOrderById data.id = some s0)
    (hrej : data.status = Status.REJECTED) :
    ∃ db2, onSubOrderStatusAccepted db data = .ok db2 ∧
      (db2.getSubOrderById data.id).map DbSubOrder.status = some Status.REJECTED := by
  have hs0id : s0.id = data.id := by
    have := List.find?_some hfound
    simpa using this
  have hsome : (db.getSubOrderById data.id).isSome := by rw [hfound]; rfl
  by_cases h0 : s0.status = Status.REJECTED
  · have hstep : onSubOrderStatusAccepted db data =
        .ok (db.updateSubOrder { s0 with sentToAggregator := true }) := by
      simp [onSubOrderStatusAccepted, hfound, hrej, h0]
    refine ⟨_, hstep, ?_⟩
    rw [getSubOrderById_update db _ data.id (by simpa using hs0id) hsome]
    simp [h0]
  · have hstep : onSubOrderStatusAccepted db data =
        .ok (db.updateSubOrder
          { s0 with status := Status.REJECTED, sentToAggregator := true }) := by
      simp [onSubOrderStatusAccepted, hfound, hrej, h0]
    refine ⟨_, hstep, ?_⟩
    rw [getSubOrderById_update db _ data.id (by simpa using hs0id) hsome]
    simp

/-- Witness for C1 (amended) at the concrete FILLED store. -/
theorem hub_rejection_forces_rejected_witness :
    ∃ db2, onSubOrderStatusAccepted dbFilled ackRejected = .ok db2 ∧
      (db2.getSubOrderById 1).map DbSubOrder.status = some Status.REJECTED :=
  hub_rejection_forces_rejected dbFilled ackRejected subOrderFilled (by decide) rfl

/-! ## Claim C2: the signed blockchain order's fields -/

def chainEnvEx : ChainEnv :=
  { chainId := 3
    address := List.replicate 20 1
    matcherAddress := List.replicate 20 2
    ornAddress := List.replicate 20 5
    symbolToAddresses := fun _ => (List.replicate 20 3, List.replicate 20 4)
    signTypedMessage := fun _ _ => [] }

def tradeFilledEx : Trade :=
  { exchange := "X"
    exchangeOrderId := "e1"
    price := 10000
    amount := 1
    status := Status.FILLED }

/-- C2 counterexample.  For a buy-side sub-order with a FILLED trade,
`signTrade` produces `buySide = 0`, not 1: `counterSide` maps `buy ↦ 0`
(the broker signs the counter side of its venue order). -/
theorem signTrade_buy_gives_buySide_zero :
    subOrderFilled.side = Side.buy ∧ tradeFilledEx.status = Status.FILLED ∧
    (signTrade chainEnvEx 0 subOrderFilled tradeFilledEx).buySide ≠ 1 := by
  refine ⟨rfl, rfl, ?_⟩
  decide

/-- C2 (amended).  `signTrade` returns a `BlockchainOrder` with
`buySide = 0` for a buy-side sub-order and `buySide = 1` for a sell-side one
(the counter side), amount and price scaled by `1e8` into integer base units
(JS `Math.round`), `matcherFee = 0`, and
`expiration = subOrder.timestamp + 29*24*60*60*1000` ms. -/
theorem signTrade_fields (env : ChainEnv) (now : Nat) (subOrder : DbSubOrder)
    (trade : Trade) :
    ((signTrade env now subOrder trade).buySide =
      if subOrder.side = Side.buy then 0 else 1) ∧
    (signTrade env now subOrder trade).amount =
      ((trade.amount * 100000000 : Rat) + 1 / 2).floor ∧
    (signTrade env now subOrder trade).price =
      ((trade.price * 100000000 : Rat) + 1 / 2).floor ∧
    (signTrade env now subOrder trade).matcherFee = 0 ∧
    (signTrade env now subOrder trade).expiration =
      (subOrder.timestamp : Int) + 29 * 24 * 60 * 60 * 1000 := by
  refine ⟨rfl, rfl, rfl, rfl, ?_⟩
  show ((subOrder.timestamp + DEFAULT_EXPIRATION : Nat) : Int) = _
  rw [DEFAULT_EXPIRATION]
  push_cast
  norm_num

/-! ## Claim C3: idempotent create -/

theorem onCheckSubOrder_now (env : ChainEnv) (n1 n2 : Nat) (db : Db) (i : Nat) :
    onCheckSubOrder env n1 db i = onCheckSubOrder env n2 db i := rfl

theorem create_fresh (env : ChainEnv) (submit : Option String) (now : Nat)
    (db : Db) (request : CreateSubOrder)
    (hnew : db.getSubOrderById request.id = none) :
    (onCreateSubOrder env submit now db request).submitCalls = 1 ∧
    (onCreateSubOrder env submit now db request).result =
      onCheckSubOrder env now (onCreateSubOrder env submit now db request).db request.id ∧
    ((onCreateSubOrder env submit now db request).db.getSubOrderById request.id).isSome := by
  cases submit with
  | none =>
    refine ⟨?_, ?_, ?_⟩
    · simp only [onCreateSubOrder, hnew]
    · simp only [onCreateSubOrder, hnew]
    · simp only [onCreateSubOrder, hnew]
      rw [getSubOrderById_insert_update _ _ _ request.id rfl rfl hnew]
      rfl
  | some eid =>
    refine ⟨?_, ?_, ?_⟩
    · simp only [onCreateSubOrder, hnew]
    · simp only [onCreateSubOrder, hnew]
    · simp only [onCreateSubOrder, hnew]
      rw [getSubOrderById_insert_update _ _ _ request.id rfl rfl hnew]
      rfl

/-- C3.  Starting from a store that does not yet hold `request.id`, running
`onCreateSubOrder` twice in sequence leaves the same persisted state and
returns the same `SubOrderStatus` as running it once, and the exchange
adapter's `submitSubOrder` is invoked exactly once across the two calls
(the replay short-circuits to `onCheckSubOrder`). -/
theorem onCreateSubOrder_idempotent (env : ChainEnv) (submit1 submit2 : Option String)
    (now1 now2 : Nat) (db : Db) (request : CreateSubOrder)
    (hnew : db.getSubOrderById request.id = none) :
    ((onCreateSubOrder env submit2 now2
        (onCreateSubOrder env submit1 now1 db request).db request).db =
      (onCreateSubOrder env submit1 now1 db request).db) ∧
    ((onCreateSubOrder env submit2 now2
        (onCreateSubOrder env submit1 now1 db request).db request).result =
      (onCreateSubOrder env submit1 now1 db request).result) ∧
    (onCreateSubOrder env submit1 now1 db request).submitCalls +
      (onCreateSubOrder env submit2 now2
        (onCreateSubOrder env submit1 now1 db request).db request).submitCalls = 1 := by
  obtain ⟨hc1, hr1, hfound1⟩ := create_fresh env submit1 now1 db request hnew
  obtain ⟨s1, hs1⟩ := Option.isSome_iff_exists.mp hfound1
  have hgen : ∀ dbx : Db, dbx.getSubOrderById request.id = some s1 →
      onCreateSubOrder env submit2 now2 dbx request =
        { db := dbx, result := onCheckSubOrder env now2 dbx request.id,
          submitCalls := 0 } := by
    intro dbx hx
    simp only [onCreateSubOrder, hx]
  have h2 := hgen _ hs1
  refine ⟨by rw [h2], ?_, by rw [h2, hc1]; rfl⟩
  rw [h2, hr1]
  exact onCheckSubOrder_now env now2 now1 _ request.id

/-- Witness for C3 at a concrete fresh request. -/
theorem onCreateSubOrder_idempotent_witness :
    ((onCreateSubOrder chainEnvEx (some "e4") 7
        (onCreateSubOrder chainEnvEx (some "e4") 7
          { subOrders := [], trades := [], withdraws := [], transactions := [] }
          { id := 4, symbol := "BTC-USDT", side := Side.buy, price := 10000,
            amount := 1, exchange := "X" }).db
        { id := 4, symbol := "BTC-USDT", side := Side.buy, price := 10000,
          amount := 1, exchange := "X" }).db =
      (onCreateSubOrder chainEnvEx (some "e4") 7
        { subOrders := [], trades := [], withdraws := [], transactions := [] }
        { id := 4, symbol := "BTC-USDT", side := Side.buy, price := 10000,
          amount := 1, exchange := "X" }).db) ∧
    (onCreateSubOrder chainEnvEx (some "e4") 7
        { subOrders := [], trades := [], withdraws := [], transactions := [] }
        { id := 4, symbol := "BTC-USDT", side := Side.buy, price := 10000,
          amount := 1, exchange := "X" }).submitCalls +
      (onCreateSubOrder chainEnvEx (some "e4") 7
        (onCreateSubOrder chainEnvEx (some "e4") 7
          { subOrders := [], trades := [], withdraws := [], transactions := [] }
          { id := 4, symbol := "BTC-USDT", side := Side.buy, price := 10000,
            amount := 1, exchange := "X" }).db
        { id := 4, symbol := "BTC-USDT", side := Side.buy, price := 10000,
          amount := 1, exchange := "X" }).submitCalls = 1 :=
  have h := onCreateSubOrder_idempotent chainEnvEx (some "e4") (some "e4") 7 7
    { subOrders := [], trades := [], withdraws := [], transactions := [] }
    { id := 4, symbol := "BTC-USDT", side := Side.buy, price := 10000,
      amount := 1, exchange := "X" } rfl
  ⟨h.1, h.2.2⟩

/-! ## Claim C4: onTrade guard and effect -/

/-- C4.  When the venue reports a FILLED trade whose amount differs from the
stored sub-order's amount, `onTrade` fails without mutating the store.  When
the trade is accepted (CANCELED, or FILLED with matching amount), the
sub-order's `filledAmount` becomes `trade.amount`, its status becomes
`trade.status`, and a `Trade` row is inserted if and only if the new
`filledAmount` is positive. -/
theorem onTrade_spec (db : Db) (trade : Trade) (s : DbSubOrder)
    (hfound : db.getSubOrder trade.exchange trade.exchangeOrderId = some s) :
    (trade.status = Status.FILLED → s.amount ≠ trade.amount → onTrade db trade = db) ∧
    ((trade.status = Status.FILLED ∧ s.amount = trade.amount) ∨
        trade.status = Status.CANCELED →
      onTrade db trade =
        Db.updateSubOrder (if 0 < trade.amount then db.insertTrade trade else db)
          { s with filledAmount := trade.amount, status := trade.status }) := by
  constructor
  · intro hf hne
    simp [onTrade, hfound, hf, hne]
  · intro hacc
    rcases hacc with ⟨hf, heq⟩ | hc
    · simp [onTrade, hfound, hf, heq]
    · simp [onTrade, hfound, hc]

def subOrderAccepted : DbSubOrder :=
  { id := 2
    symbol := "BTC-USDT"
    side := Side.sell
    price := 10000
    amount := 1
    exchange := "X"
    timestamp := 1600000000000
    status := Status.ACCEPTED
    filledAmount := 0
    exchangeOrderId := some "e2"
    sentToAggregator := false }

def dbAccepted : Db :=
  { subOrders := [subOrderAccepted], trades := [], withdraws := [], transactions := [] }

def tradeCanceledEx : Trade :=
  { exchange := "X"
    exchangeOrderId := "e2"
    price := 10000
    amount := 0
    status := Status.CANCELED }

/-- Witness for C4: an accepted CANCELED trade with zero fill updates the
sub-order and inserts no trade row. -/
theorem onTrade_spec_witness :
    dbAccepted.getSubOrder "X" "e2" = some subOrderAccepted ∧
    onTrade dbAccepted tradeCanceledEx =
      Db.updateSubOrder
        (if 0 < tradeCanceledEx.amount then dbAccepted.insertTrade tradeCanceledEx
          else dbAccepted)
        { subOrderAccepted with filledAmount := tradeCanceledEx.amount, status := tradeCanceledEx.status } :=
  ⟨by decide,
    (onTrade_spec dbAccepted tradeCanceledEx subOrderAccepted (by decide)).2 (Or.inr rfl)⟩

/-! ## Claim C5: onCheckSubOrder -/

/-- C5.  `onCheckSubOrder id` returns `{id, status = null, filledAmount = 0}`
when no sub-order with that id is persisted.  When one is persisted (with at
most one trade, the store invariant), it returns its `filledAmount`, its
status with PREPARE reported as ACCEPTED, and a `blockchainOrder` that is
present if and only if a trade exists for the sub-order. -/
theorem onCheckSubOrder_spec (env : ChainEnv) (now : Nat) (db : Db) (i : Nat) :
    (db.getSubOrderById i = none →
      onCheckSubOrder env now db i =
        .ok { id := i, status := none, filledAmount := 0, blockchainOrder := none }) ∧
    (∀ s, db.getSubOrderById i = some s → (tradesOf db s).length ≤ 1 →
      onCheckSubOrder env now db i =
        .ok { id := i
              status := some (if s.status = Status.PREPARE then Status.ACCEPTED
                else s.status)
              filledAmount := s.filledAmount
              blockchainOrder := (tradesOf db s).head?.map (signTrade env now s) } ∧
      ∀ st, onCheckSubOrder env now db i = .ok st →
        (st.blockchainOrder.isSome ↔ tradesOf db s ≠ [])) := by
  constructor
  · intro hnone
    simp [onCheckSubOrder, hnone]
  · intro s hs hlen
    have hres : onCheckSubOrder env now db i =
        .ok { id := i
              status := some (if s.status = Status.PREPARE then Status.ACCEPTED
                else s.status)
              filledAmount := s.filledAmount
              blockchainOrder := (tradesOf db s).head?.map (signTrade env now s) } := by
      simp only [onCheckSubOrder, hs]
      rw [if_neg (by omega)]
      cases htr : tradesOf db s with
      | nil => simp [htr]
      | cons t rest => simp [htr]
    refine ⟨hres, ?_⟩
    intro st hst
    rw [hres] at hst
    cases hst
    cases htr : tradesOf db s with
    | nil => simp [htr]
    | cons t rest => simp [htr]

/-- Witness for C5 at an empty store: an unknown id yields the null status. -/
theorem onCheckSubOrder_spec_witness :
    onCheckSubOrder chainEnvEx 0
      { subOrders := [], trades := [], withdraws := [], transactions := [] } 5 =
      .ok { id := 5, status := none, filledAmount := 0, blockchainOrder := none } :=
  (onCheckSubOrder_spec chainEnvEx 0
    { subOrders := [], trades := [], withdraws := [], transactions := [] } 5).1 rfl

/-! ## Claim C6: venue selection for withdrawal -/

theorem ifLtMax (a b : Rat) : (if a < b then b else a) = max a b := by
  rcases lt_or_ge a b with h | h
  · rw [if_pos h, max_eq_right h.le]
  · rw [if_neg (not_lt.2 h), max_eq_left h]

/-- Whether a venue qualifies for a withdrawal, following the spec's words:
it supports withdrawal, has a valid withdraw limit, and its last known
balance for the asset strictly exceeds `amountWithFee = max(remaining + fee,
min)`; on success the `amountWithFee` to withdraw. -/
def venueQualifies (cenv : ConnectorsEnv) (amount : Rat) (assetName : String)
    (exchange : String) (bals : Dict Rat) : Option Rat :=
  match cenv.getConnector exchange with
  | none => none
  | some c =>
    if c.hasWithdraw then
      match c.getWithdrawLimit assetName with
      | none => none
      | some wl =>
        match wl.fee, wl.min with
        | some fee, some mn =>
          let amountWithFee := max (amount + fee) mn
          match dictLookup bals assetName with
          | none => none
          | some b => if b > amountWithFee then some amountWithFee else none
        | _, _ => none
    else none

/-- The spec-side reading of venue selection: the first enumerated venue that
qualifies, with its `amountWithFee`; none when no venue qualifies. -/
def getExchangeForWithdrawSpec (cenv : ConnectorsEnv) :
    Dict (Dict Rat) → Rat → String → Option (String × Rat)
  | [], _, _ => none
  | (exchange, bals) :: rest, amount, assetName =>
    match venueQualifies cenv amount assetName exchange bals with
    | some amountWithFee => some (exchange, amountWithFee)
    | none => getExchangeForWithdrawSpec cenv rest amount assetName

theorem getExchangeForWithdraw_eq_spec (cenv : ConnectorsEnv)
    (lb : Dict (Dict Rat)) (amount : Rat) (assetName : String) :
    getExchangeForWithdraw cenv lb amount assetName =
      getExchangeForWithdrawSpec cenv lb amount assetName := by
  induction lb with
  | nil => rfl
  | cons p rest ih =>
    obtain ⟨exchange, bals⟩ := p
    simp only [getExchangeForWithdraw, getExchangeForWithdrawSpec, venueQualifies]
    cases hc : cenv.getConnector exchange with
    | none => exact ih
    | some c =>
      (try dsimp only)
      cases hw : c.hasWithdraw with
      | false => exact ih
      | true =>
        (try dsimp only)
        cases hl : c.getWithdrawLimit assetName with
        | none => exact ih
        | some wl =>
          (try dsimp only)
          cases hf : wl.fee with
          | none => exact ih
          | some fee =>
            (try dsimp only)
            cases hm : wl.min with
            | none => exact ih
            | some mn =>
              (try dsimp only)
              rw [ifLtMax]
              cases hb : dictLookup bals assetName with
              | none => exact ih
              | some b =>
                (try dsimp only)
                simp only [gt_iff_lt]
                by_cases hcmp : max (amount + fee) mn < b
                · rw [if_pos hcmp, if_pos hcmp]; rfl
                · rw [if_neg hcmp, if_neg hcmp]; exact ih

/-- The liability scenario's connectors: one venue with limit
`{min := 10, fee := 1}`. -/
def connectorsEnvEx : ConnectorsEnv :=
  { getConnector := fun _ =>
      some { hasWithdraw := true
             getWithdrawLimit := fun _ => some { fee := some 1, min := some 10 } }
    withdrawResult := fun _ _ _ => some "w1" }

/-- C6.  `getExchangeForWithdraw` returns the first venue in the balance
snapshot's enumeration order that supports withdrawal, has a valid withdraw
limit, and whose last known balance for the asset strictly exceeds
`amountWithFee = max(remaining + fee, min)`, together with `amountWithFee`;
it returns none when no venue qualifies.  In particular, for remaining 100
with limit `{min := 10, fee := 1}` and a venue balance of 200, it selects
that venue with `amountWithFee = 101`. -/
theorem getExchangeForWithdraw_first_qualifying :
    (∀ (cenv : ConnectorsEnv) (lb : Dict (Dict Rat)) (amount : Rat)
      (assetName : String),
      getExchangeForWithdraw cenv lb amount assetName =
        getExchangeForWithdrawSpec cenv lb amount assetName) ∧
    getExchangeForWithdraw connectorsEnvEx [("X", [("USDT", (200 : Rat))])]
      100 "USDT" = some ("X", 101) := by
  refine ⟨getExchangeForWithdraw_eq_spec, ?_⟩
  simp only [getExchangeForWithdraw, connectorsEnvEx, dictLookup, List.find?]
  norm_num

/-! ## Claim C10: wholesale balance snapshot replacement -/

theorem foldl_balances (balances : Dict (Except String (Dict Rat)))
    (acc : Dict (Dict Rat)) :
    balances.foldl
      (fun acc p => match p.2 with
        | .error _ => acc
        | .ok result => acc ++ [(p.1, result)]) acc =
      acc ++ balances.filterMap
        (fun p => match p.2 with
          | .error _ => none
          | .ok result => some (p.1, result)) := by
  induction balances generalizing acc with
  | nil => simp
  | cons p rest ih =>
    obtain ⟨k, v⟩ := p
    cases v with
    | error e => simpa using ih acc
    | ok b =>
      simp only [List.foldl_cons, List.filterMap_cons]
      rw [ih]
      simp

theorem getExchangeForWithdraw_mem (cenv : ConnectorsEnv)
    (lb : Dict (Dict Rat)) (amount : Rat) (assetName ex : String) (awf : Rat)
    (h : getExchangeForWithdraw cenv lb amount assetName = some (ex, awf)) :
    ex ∈ lb.map Prod.fst := by
  induction lb with
  | nil => simp [getExchangeForWithdraw] at h
  | cons p rest ih =>
    obtain ⟨k, bals⟩ := p
    simp only [getExchangeForWithdraw] at h
    simp only [List.map_cons, List.mem_cons]
    repeat' split at h
    all_goals first
      | exact Or.inr (ih h)
      | (simp only [Option.some.injEq, Prod.mk.injEq] at h; exact Or.inl h.1.symm)

/-- C10.  `sendUpdateBalance` replaces the in-memory snapshot wholesale:
afterwards `lastBalances` holds exactly the exchanges whose poll succeeded in
this call, with their freshly polled values; an exchange whose poll errored is
absent (not retained at its previous value); and `getExchangeForWithdraw` can
only ever select an exchange present in the snapshot. -/
theorem sendUpdateBalance_snapshot :
    (∀ (lastSent : Dict (Dict Rat)) (balances : Dict (Except String (Dict Rat))),
      (sendUpdateBalance lastSent balances).lastBalances =
        balances.filterMap (fun p => match p.2 with
          | .error _ => none
          | .ok result => some (p.1, result))) ∧
    (∀ (lastSent : Dict (Dict Rat)) (balances : Dict (Except String (Dict Rat)))
      (ex e : _), (balances.map Prod.fst).Nodup →
      (ex, Except.error e) ∈ balances →
      ∀ b, (ex, b) ∉ (sendUpdateBalance lastSent balances).lastBalances) ∧
    (∀ (cenv : ConnectorsEnv) (lb : Dict (Dict Rat)) (amount : Rat)
      (assetName ex : String) (awf : Rat),
      getExchangeForWithdraw cenv lb amount assetName = some (ex, awf) →
      ex ∈ lb.map Prod.fst) := by
  have hfst : ∀ (lastSent : Dict (Dict Rat))
      (balances : Dict (Except String (Dict Rat))),
      (sendUpdateBalance lastSent balances).lastBalances =
        balances.filterMap (fun p => match p.2 with
          | .error _ => none
          | .ok result => some (p.1, result)) := by
    intro lastSent balances
    show balances.foldl _ [] = _
    rw [foldl_balances]
    simp
  refine ⟨hfst, ?_, fun cenv lb amount assetName ex awf h =>
    getExchangeForWithdraw_mem cenv lb amount assetName ex awf h⟩
  intro lastSent balances ex e hnodup hmem b hmemRes
  rw [hfst] at hmemRes
  rw [List.mem_filterMap] at hmemRes
  obtain ⟨a, ha, hfa⟩ := hmemRes
  obtain ⟨a1, a2⟩ := a
  cases a2 with
  | error e2 => exact Option.noConfusion hfa
  | ok b2 =>
    simp only [Option.some.injEq, Prod.mk.injEq] at hfa
    have heq : ((a1, Except.ok b2) : String × Except String (Dict Rat)) =
        (ex, Except.error e) :=
      List.inj_on_of_nodup_map hnodup ha hmem (by simpa using hfa.1)
    simp at heq

def balancesPollEx : Dict (Except String (Dict Rat)) :=
  [("A", Except.error "timeout"), ("B", Except.ok [("USDT", 1)])]

/-- Witness for C10: after a poll in which exchange A errored, A is absent
from the snapshot. -/
theorem sendUpdateBalance_snapshot_witness :
    (balancesPollEx.map Prod.fst).Nodup ∧
    ∀ b, ("A", b) ∉ (sendUpdateBalance [] balancesPollEx).lastBalances :=
  ⟨by decide,
    fun b => sendUpdateBalance_snapshot.2.1 [] balancesPollEx "A" "timeout"
      (by decide) (List.mem_cons_self _ _) b⟩

/-! ## Claim C7: liability guard and frame -/

theorem deposit_shape (genv : GatewayEnv) (db : Db) (amount : Rat) (assetName : String) :
    deposit genv db amount assetName = db ∨
      ∃ txn, deposit genv db amount assetName = db.insetTransaction txn := by
  unfold deposit
  repeat' split
  all_goals first
    | exact Or.inl rfl
    | exact Or.inr ⟨_, rfl⟩

theorem exchangeWithdraw_shape (cenv : ConnectorsEnv) (db : Db) (exchange : String)
    (amount : Rat) (assetName : String) :
    exchangeWithdraw cenv db exchange amount assetName = db ∨
      ∃ w, exchangeWithdraw cenv db exchange amount assetName = db.insertWithdraw w := by
  unfold exchangeWithdraw
  repeat' split
  all_goals first
    | exact Or.inl rfl
    | exact Or.inr ⟨_, rfl⟩

theorem manageLiability_shape (cenv : ConnectorsEnv) (genv : GatewayEnv)
    (lb : Dict (Dict Rat)) (duePeriodSeconds : Rat) (db : Db) (L : Liability)
    (now : Rat) :
    manageLiability cenv genv lb duePeriodSeconds db L now = db ∨
      (∃ txn, manageLiability cenv genv lb duePeriodSeconds db L now =
        db.insetTransaction txn) ∨
      (∃ w, manageLiability cenv genv lb duePeriodSeconds db L now =
        db.insertWithdraw w) := by
  unfold manageLiability
  repeat' first | split | dsimp only
  all_goals first
    | exact Or.inl rfl
    | (rcases deposit_shape genv db _ _ with h | ⟨txn, h⟩
       · exact Or.inl h
       · exact Or.inr (Or.inl ⟨txn, h⟩))
    | (rcases exchangeWithdraw_shape cenv db _ _ _ with h | ⟨w, h⟩
       · exact Or.inl h
       · exact Or.inr (Or.inr ⟨w, h⟩))

/-- C7.  `manageLiability` performs no write when any persisted `Transaction`
is PENDING or any persisted `Withdraw` is pending, and likewise when
`outstandingAmount ≤ 0` or `now − timestamp ≤ duePeriodSeconds`; in every
case, sub-orders and trades are untouched, and the only possible write is the
single transaction a chosen deposit inserts or the single withdrawal row a
chosen exchange withdrawal inserts. -/
theorem manageLiability_guard_frame (cenv : ConnectorsEnv) (genv : GatewayEnv)
    (lb : Dict (Dict Rat)) (duePeriodSeconds : Rat) (db : Db) (L : Liability)
    (now : Rat) :
    (db.getPendingTransactions ≠ [] →
      manageLiability cenv genv lb duePeriodSeconds db L now = db) ∧
    (db.getWithdrawsToCheck ≠ [] →
      manageLiability cenv genv lb duePeriodSeconds db L now = db) ∧
    (L.outstandingAmount ≤ 0 →
      manageLiability cenv genv lb duePeriodSeconds db L now = db) ∧
    (now - L.timestamp ≤ duePeriodSeconds →
      manageLiability cenv genv lb duePeriodSeconds db L now = db) ∧
    ((manageLiability cenv genv lb duePeriodSeconds db L now).subOrders =
        db.subOrders ∧
      (manageLiability cenv genv lb duePeriodSeconds db L now).trades = db.trades) ∧
    (manageLiability cenv genv lb duePeriodSeconds db L now = db ∨
      (∃ txn, manageLiability cenv genv lb duePeriodSeconds db L now =
        db.insetTransaction txn) ∨
      (∃ w, manageLiability cenv genv lb duePeriodSeconds db L now =
        db.insertWithdraw w)) := by
  have hshape := manageLiability_shape cenv genv lb duePeriodSeconds db L now
  refine ⟨?_, ?_, ?_, ?_, ?_, hshape⟩
  · intro h
    unfold manageLiability
    by_cases houter : 0 < L.outstandingAmount ∧ duePeriodSeconds < now - L.timestamp
    · rw [if_pos houter, if_pos h]
    · rw [if_neg houter]
  · intro h
    unfold manageLiability
    by_cases houter : 0 < L.outstandingAmount ∧ duePeriodSeconds < now - L.timestamp
    · rw [if_pos houter]
      by_cases hpend : db.getPendingTransactions ≠ []
      · rw [if_pos hpend]
      · rw [if_neg hpend, if_pos h]
    · rw [if_neg houter]
  · intro h
    unfold manageLiability
    rw [if_neg (fun hcon => absurd hcon.1 (not_lt.2 h))]
  · intro h
    unfold manageLiability
    rw [if_neg (fun hcon => absurd hcon.2 (not_lt.2 h))]
  · rcases hshape with h | ⟨txn, h⟩ | ⟨w, h⟩ <;> rw [h] <;> exact ⟨rfl, rfl⟩

def txnPendingEx : Transaction :=
  { transactionHash := "0xabc"
    method := "deposit"
    asset := "ETH"
    amount := 1
    createTime := 0
    status := "PENDING" }

def dbPendingTx : Db :=
  { subOrders := [], trades := [], withdraws := [], transactions := [txnPendingEx] }

def gatewayEnvEx : GatewayEnv :=
  { getWalletBalance := []
    getAllowance := fun _ => 0
    depositETHTx := fun _ => none
    depositERC20Tx := fun _ _ => none }

def liabilityEx : Liability :=
  { assetName := "USDT", outstandingAmount := 1, timestamp := 0 }

/-- Witness for C7: with a PENDING transaction on file, the liability pass
writes nothing. -/
theorem manageLiability_guard_frame_witness :
    dbPendingTx.getPendingTransactions ≠ [] ∧
    manageLiability connectorsEnvEx gatewayEnvEx [] 60 dbPendingTx liabilityEx 0 =
      dbPendingTx :=
  ⟨by decide,
    (manageLiability_guard_frame connectorsEnvEx gatewayEnvEx [] 60 dbPendingTx
      liabilityEx 0).1 (by decide)⟩

/-! ## Claim C8: order hashing -/

/-- The canonical byte string of the spec (§4.3/§6): tag `0x03`, the five
20-byte addresses, then amount, price, matcherFee, nonce, expiration each as
big-endian 8-byte unsigned integers, and buySide as one byte (1 = buy,
0 = sell). -/
def specOrderBytes (o : BlockchainOrder) : List Nat :=
  [0x03] ++ o.senderAddress ++ o.matcherAddress ++ o.baseAsset ++ o.quoteAsset ++
    o.matcherFeeAsset ++ toBytesBE 8 (o.amount % (U64 : Int)).toNat ++
    toBytesBE 8 (o.price % (U64 : Int)).toNat ++
    toBytesBE 8 (o.matcherFee % (U64 : Int)).toNat ++
    toBytesBE 8 (o.nonce % (U64 : Int)).toNat ++
    toBytesBE 8 (o.expiration % (U64 : Int)).toNat ++
    [if o.buySide = 1 then 0x01 else 0x00]

/-- A fixed order (base units, ms timestamps) used as the hash vector. -/
def baseOrder : BlockchainOrder :=
  { id := []
    senderAddress := List.replicate 20 1
    matcherAddress := List.replicate 20 2
    baseAsset := List.replicate 20 3
    quoteAsset := List.replicate 20 4
    matcherFeeAsset := List.replicate 20 5
    amount := 1000000
    price := 1000000000000
    matcherFee := 0
    nonce := 1600000000000
    expiration := 1602505600000
    buySide := 1
    signature := [] }

/-- keccak-256 of `specOrderBytes baseOrder`. -/
def orderDigest : List Nat :=
  [35, 123, 51, 179, 79, 116, 192, 194, 156, 147, 222, 184, 49, 41, 197, 243,
   20, 124, 206, 15, 85, 118, 251, 61, 197, 15, 158, 125, 113, 98, 10, 180]

set_option maxRecDepth 1000000 in
set_option maxHeartbeats 4000000 in
/-- C8.  `hashOrder` is the keccak-256 of the spec's canonical byte layout
(for the well-formed `buySide ∈ {0, 1}`); on the fixed `baseOrder` the hash
is the fixed `orderDigest`, and changing any single field changes the hash. -/
theorem hashOrder_spec :
    (∀ o : BlockchainOrder, o.buySide = 0 ∨ o.buySide = 1 →
      hashOrder o = keccak256 (specOrderBytes o)) ∧
    hashOrder baseOrder = orderDigest ∧
    (hashOrder { baseOrder with senderAddress := List.replicate 20 9 } ≠ orderDigest ∧
     hashOrder { baseOrder with matcherAddress := List.replicate 20 9 } ≠ orderDigest ∧
     hashOrder { baseOrder with baseAsset := List.replicate 20 9 } ≠ orderDigest ∧
     hashOrder { baseOrder with quoteAsset := List.replicate 20 9 } ≠ orderDigest ∧
     hashOrder { baseOrder with matcherFeeAsset := List.replicate 20 9 } ≠ orderDigest ∧
     hashOrder { baseOrder with amount := 1000001 } ≠ orderDigest ∧
     hashOrder { baseOrder with price := 1000000000001 } ≠ orderDigest ∧
     hashOrder { baseOrder with matcherFee := 1 } ≠ orderDigest ∧
     hashOrder { baseOrder with nonce := 1600000000001 } ≠ orderDigest ∧
     hashOrder { baseOrder with expiration := 1602505600001 } ≠ orderDigest ∧
     hashOrder { baseOrder with buySide := 0 } ≠ orderDigest) := by
  refine ⟨?_, ?_, ?_⟩
  · intro o h
    rcases h with h | h <;>
      simp [hashOrder, hashOrderBytes, specOrderBytes, longToHex, h]
  · decide
  · decide

/-- Witness for C8: the layout equation at the fixed order. -/
theorem hashOrder_spec_witness :
    (baseOrder.buySide = 0 ∨ baseOrder.buySide = 1) ∧
    hashOrder baseOrder = keccak256 (specOrderBytes baseOrder) :=
  ⟨Or.inr rfl, hashOrder_spec.1 baseOrder (Or.inr rfl)⟩

end OrionBroker
